import Mathlib

/-!
Shallow embedding of the Refactoring Workbench transformation engine
(src/backend/services/scanner.py, refactor.py, deep_search.py, sql_alter.py).

Strings are modelled as Lean `String` / `List Char`.  Python string builtins
(`str.find`, `str.count`, `str.replace`, `str.strip`, `str.lower`) and the
`re` module calls the engine makes on *literal* patterns
(`re.subn(re.escape(p), r, s, flags=re.IGNORECASE)`) are modelled by
executable Lean functions with the documented CPython semantics:
left-to-right, non-overlapping, leftmost occurrence first.  Case folding is
modelled ASCII-wise via `Char.toLower` (CPython folds full Unicode; every
concrete input used below is ASCII).  General regular expressions supplied by
the user are abstracted by a `RegexEngine` parameter: one validity predicate
and one match enumerator shared by every call site, mirroring the single
`re` module both Python files call; `re.subn` on a user regex is modelled as
splicing the replacement over exactly the spans that same enumerator reports,
with `count` equal to their number, which is the documented CPython >= 3.7
contract between `re.subn` and `re.finditer`.

Recursive scanners take an explicit fuel argument (always instantiated with a
provably sufficient bound) so that every definition is structurally recursive
and reduces inside the kernel.
-/

namespace Workbench

/-- Python whitespace (`str.strip`, regex `\s`), ASCII subset. -/
def isWs (c : Char) : Bool :=
  c = ' ' || c = '\t' || c = '\n' || c = '\r' || c = '\x0b' || c = '\x0c'

/-- Prefix test on char lists (Python slice comparison / `str.startswith`). -/
def isPre : List Char → List Char → Bool
  | [], _ => true
  | _ :: _, [] => false
  | a :: as, b :: bs => if a = b then isPre as bs else false

/-- Index of the first occurrence of `pat` in `s` (Python `str.find` from
position 0); `none` models Python returning `-1`. -/
def findFromList (s pat : List Char) : Option Nat :=
  if isPre pat s then some 0
  else
    match s with
    | [] => none
    | _ :: t => (findFromList t pat).map (· + 1)

/-- Python `str.find(sub, start)`: first occurrence at index `>= start`;
Python returns `-1` (here `none`) whenever `start` exceeds the length. -/
def pyFindFrom (s pat : List Char) (start : Nat) : Option Nat :=
  if start ≤ s.length then (findFromList (s.drop start) pat).map (· + start)
  else none

/-- Fuelled core of Python `str.count` (non-overlapping, left to right).
Fuel exceeding `s.length` never runs out. -/
def countF : Nat → List Char → List Char → Nat
  | 0, _, _ => 0
  | fuel + 1, s, pat =>
    if isPre pat s ∧ pat ≠ [] then countF fuel (s.drop pat.length) pat + 1
    else
      match s with
      | [] => 0
      | _ :: t => countF fuel t pat

/-- Python `str.count`: an empty pattern counts `len + 1`. -/
def pyCount (s pat : List Char) : Nat :=
  if pat = [] then s.length + 1 else countF (s.length + 1) s pat

/-- Fuelled core of Python `str.replace` (all non-overlapping occurrences,
left to right). -/
def replaceF : Nat → List Char → List Char → List Char → List Char
  | 0, s, _, _ => s
  | fuel + 1, s, pat, rep =>
    if isPre pat s ∧ pat ≠ [] then rep ++ replaceF fuel (s.drop pat.length) pat rep
    else
      match s with
      | [] => []
      | a :: t => a :: replaceF fuel t pat rep

/-- Interleaving used by CPython for an empty pattern:
`"ab".replace("", "X") = "XaXbX"` and `re.subn("", "X", "ab")` likewise. -/
def interleave (s rep : List Char) : List Char :=
  rep ++ (s.map fun c => c :: rep).flatten

/-- Python `str.replace`. -/
def pyReplace (s pat rep : List Char) : List Char :=
  if pat = [] then interleave s rep else replaceF (s.length + 1) s pat rep

/-- Fuelled core of `re.subn(re.escape(pat), rep, s, flags=re.IGNORECASE)`:
case-insensitive literal substitution, leftmost, non-overlapping.  `patL` is
the already-lowercased pattern.  Returns (new content, count). -/
def ciSubnF : Nat → List Char → List Char → List Char → List Char × Nat
  | 0, s, _, _ => (s, 0)
  | fuel + 1, s, patL, rep =>
    if isPre patL (s.map Char.toLower) ∧ patL ≠ [] then
      let r := ciSubnF fuel (s.drop patL.length) patL rep
      (rep ++ r.1, r.2 + 1)
    else
      match s with
      | [] => ([], 0)
      | a :: t =>
        let r := ciSubnF fuel t patL rep
        (a :: r.1, r.2)

/-- `re.subn(re.escape(pat), rep, s, flags=re.IGNORECASE)` on char lists;
an empty pattern matches at every position (CPython >= 3.7). -/
def ciSubn (s pat rep : List Char) : List Char × Nat :=
  let patL := pat.map Char.toLower
  if patL = [] then (interleave s rep, s.length + 1)
  else ciSubnF (s.length + 1) s patL rep

/-- Python `str.strip` on a char list: drop leading whitespace. -/
def dropLeadWs (l : List Char) : List Char := l.dropWhile isWs

/-- Python `str.strip` on a char list: drop trailing whitespace. -/
def dropTrailWs (l : List Char) : List Char := (l.reverse.dropWhile isWs).reverse

/-- Python `str.strip` (both ends). -/
def stripList (l : List Char) : List Char := dropTrailWs (dropLeadWs l)

/-- Python `str.strip` on `String`. -/
def pyStrip (s : String) : String := String.mk (stripList s.data)

/-- Python `str.lower` on `String` (ASCII model). -/
def strLower (s : String) : String := String.mk (s.data.map Char.toLower)

/-- Python `str.split(sep)` for a one-character separator (empty parts are
kept, as in Python). -/
def splitCharList (l : List Char) (sep : Char) : List (List Char) :=
  match l with
  | [] => [[]]
  | a :: t =>
    let r := splitCharList t sep
    if a = sep then [] :: r
    else
      match r with
      | [] => [[a]]
      | x :: xs => (a :: x) :: xs

/-- `"\n".join(...)` / `sep.join(...)` on char lists. -/
def joinSep (sep : List Char) : List (List Char) → List Char
  | [] => []
  | [x] => x
  | x :: xs => x ++ sep ++ joinSep sep xs

/-- Index of the last occurrence of character `c` (Python `str.rfind` with a
single-character needle); `none` models `-1`. -/
def rfindIdx (l : List Char) (c : Char) : Option Nat :=
  match l with
  | [] => none
  | a :: t =>
    match rfindIdx t c with
    | some i => some (i + 1)
    | none => if a = c then some 0 else none

/-- `os.path.splitext` (posix): split off the extension at the last dot of
the basename, unless that basename consists only of leading dots up to it. -/
def splitextList (p : List Char) : List Char × List Char :=
  match rfindIdx p '.' with
  | none => (p, [])
  | some d =>
    let fi : Nat := match rfindIdx p '/' with | none => 0 | some s => s + 1
    let sepOk : Bool := match rfindIdx p '/' with | none => true | some s => decide (s < d)
    if sepOk ∧ ((p.drop fi).take (d - fi)).any (fun c => decide (c ≠ '.')) then
      (p.take d, p.drop d)
    else (p, [])

/-- The extension part of `os.path.splitext(path)[1]` as a `String`. -/
def extOf (path : String) : String := String.mk (splitextList path.data).2

/-- Abstraction of the CPython `re` module on user-supplied (non-literal)
patterns, shared by every call site exactly as both Python service files
share the one `re` module: `valid p = false` models `re.compile`/`re.finditer`
/`re.subn` raising `re.error` for pattern `p`; `find p ignoreCase content`
models the `(start, end, group)` triples `re.finditer` reports. -/
structure RegexEngine where
  valid : String → Bool
  find : String → Bool → String → List (Nat × Nat × String)

/-- Splice `rep` over the listed `(start, stop, _)` spans of `s`
(assumed ordered, as `re.finditer` yields them); this is how `re.subn`
produces its result string from the matches it counts. -/
def spliceSpans (s rep : List Char) : Nat → List (Nat × Nat × String) → List Char
  | cur, [] => s.drop cur
  | cur, (st, en, _) :: rest => (s.drop cur).take (st - cur) ++ rep ++ spliceSpans s rep en rest

/-- `re.subn(pattern, rep, content, flags)` for a user regex, via the shared
engine: count equals the number of `finditer` matches (CPython >= 3.7). -/
def reSubn (E : RegexEngine) (pattern rep content : String) (ignoreCase : Bool) :
    String × Nat :=
  let ms := E.find pattern ignoreCase content
  (String.mk (spliceSpans content.data rep.data 0 ms), ms.length)

namespace FileScanner

/-- `scanner._normalize_ext`: strip, lowercase, force one leading dot. -/
def normalize_ext (ext : String) : String :=
  let e := strLower (pyStrip ext)
  if e ≠ "" ∧ ¬(e.data.head? = some '.') then String.mk ('.' :: e.data) else e

/-- `scanner._normalize_ext_set`: parse a comma-separated extension string
into normalized entries (Python builds a `set`; membership and emptiness are
what the engine uses, so a list of the added elements models it). -/
def normalize_ext_set (ext_string : String) : List String :=
  if ext_string = "" then []
  else
    (splitCharList ext_string.data ',').filterMap fun part =>
      let n := normalize_ext (String.mk part)
      if n = "" then none else some n

/-- `scanner.FileScanner._parse_folders`. -/
def parse_folders (folder_string : String) : List String :=
  if folder_string = "" then []
  else
    (splitCharList folder_string.data ',').filterMap fun part =>
      let f := pyStrip (String.mk part)
      if f = "" then none else some (strLower f)

/-- `scanner.FileScanner.ALWAYS_EXCLUDE_FOLDERS`. -/
def ALWAYS_EXCLUDE_FOLDERS : List String :=
  [".git", ".vs", ".idea", "__pycache__", ".svn", ".hg"]

/-- The configuration state a `FileScanner` instance holds after `__init__`. -/
structure Cfg where
  include_extensions : List String
  exclude_extensions : List String
  exclude_folders : List String
deriving DecidableEq

/-- `scanner.FileScanner.__init__` from the three comma-separated strings. -/
def mkScanner (include_extensions exclude_extensions exclude_folders : String) : Cfg :=
  { include_extensions := normalize_ext_set include_extensions
    exclude_extensions := normalize_ext_set exclude_extensions
    exclude_folders := parse_folders exclude_folders ++ ALWAYS_EXCLUDE_FOLDERS }

/-- `scanner.FileScanner.should_include_file`. -/
def should_include_file (cfg : Cfg) (file_path : String) : Bool :=
  let ext := strLower (extOf file_path)
  if ext ∈ cfg.exclude_extensions then false
  else if cfg.include_extensions ≠ [] then decide (ext ∈ cfg.include_extensions)
  else true

/-- The `while True` loop of `scanner.FileScanner.find_matches` (plain-text
branch): `str.find` from `start`, record `(pos, pos + pattern_len, slice of
the original content)`, resume at `pos + pattern_len`.  The fuel bounds the
number of iterations; `none` models the Python loop never terminating, which
happens exactly when the pattern is empty (`find` then keeps returning
`start` and `start` never advances). -/
def matchLoop (searchC origC pat : List Char) : Nat → Nat → Option (List (Nat × Nat × String))
  | _, 0 => none
  | start, fuel + 1 =>
    match pyFindFrom searchC pat start with
    | none => some []
    | some pos =>
      (matchLoop searchC origC pat (pos + pat.length) fuel).map
        fun rest => (pos, pos + pat.length, String.mk ((origC.drop pos).take pat.length)) :: rest

/-- `scanner.FileScanner.find_matches`.  In the case-insensitive plain branch
the scan runs over the lowered content/pattern while the matched text is
sliced from the original content, as in the source; `len(search_pattern)` and
the lowered pattern length agree because `List.map` preserves length. -/
def find_matches (E : RegexEngine) (content search_pattern : String)
    (is_regex case_sensitive : Bool) : Option (List (Nat × Nat × String)) :=
  if is_regex then
    if E.valid search_pattern then
      some (E.find search_pattern (!case_sensitive) content)
    else some []
  else
    let search_text := if case_sensitive then search_pattern.data
      else search_pattern.data.map Char.toLower
    let search_content := if case_sensitive then content.data
      else content.data.map Char.toLower
    matchLoop search_content content.data search_text 0 (search_content.length + 1)

/-- `scanner.FileScanner.apply_replacement` (the `_compiled_pattern` argument
is an optimization defaulting to `None`; the uncompiled paths are modelled).
Regex branch: invalid pattern degrades to `(content, 0)`. -/
def apply_replacement (E : RegexEngine) (content search_pattern replacement_text : String)
    (is_regex case_sensitive : Bool) : String × Nat :=
  if is_regex then
    if E.valid search_pattern then
      reSubn E search_pattern replacement_text content (!case_sensitive)
    else (content, 0)
  else
    if case_sensitive then
      (String.mk (pyReplace content.data search_pattern.data replacement_text.data),
       pyCount content.data search_pattern.data)
    else
      let r := ciSubn content.data search_pattern.data replacement_text.data
      (String.mk r.1, r.2)

/-- One entry of the list `scanner.FileScanner.find_matches_with_context`
returns (a Python dict in the source). -/
structure CtxMatch where
  line_number : Nat
  original_text : String
  replacement_text : String
  context_snippet : String
deriving DecidableEq

/-- The `line_starts` table: `[0]` then cumulative `len(line) + 1`. -/
def lineStarts (lines : List (List Char)) : List Nat :=
  0 :: go 0 lines
where
  go (acc : Nat) : List (List Char) → List Nat
    | [] => []
    | l :: rest => (acc + l.length + 1) :: go (acc + l.length + 1) rest

/-- The binary-search loop of `find_matches_with_context` (`lo`,`hi` over
`line_starts`; fuel bounds the iterations, `hi - lo` halves each round). -/
def bsearchF (ls : List Nat) (start_pos : Nat) : Nat → Nat → Nat → Nat
  | 0, lo, _ => lo
  | fuel + 1, lo, hi =>
    if lo < hi then
      let mid := (lo + hi) / 2
      if ls.getD mid 0 > start_pos then bsearchF ls start_pos fuel lo mid
      else bsearchF ls start_pos fuel (mid + 1) hi
    else lo

/-- `scanner.FileScanner.find_matches_with_context` (`none` bubbles up the
non-termination of `find_matches` on an empty plain pattern). -/
def find_matches_with_context (E : RegexEngine)
    (content search_pattern replacement_text : String)
    (is_regex case_sensitive : Bool) (context_lines : Nat := 1) :
    Option (List CtxMatch) :=
  (find_matches E content search_pattern is_regex case_sensitive).map fun ms =>
    if ms = [] then []
    else
      let lines := splitCharList content.data '\n'
      let line_starts := lineStarts lines
      ms.map fun m =>
        let lo := bsearchF line_starts m.1 line_starts.length 0 (line_starts.length - 1)
        let line_num := lo - 1
        let ctx_start := line_num - context_lines
        let ctx_end := min lines.length (line_num + context_lines + 1)
        { line_number := line_num + 1
          original_text := m.2.2
          replacement_text := replacement_text
          context_snippet :=
            String.mk (joinSep ['\n'] ((lines.drop ctx_start).take (ctx_end - ctx_start))) }

end FileScanner

/-- A replacement rule as the executor consumes it (a Python dict with these
keys; `target_extensions` is a nullable comma-separated string). -/
structure Rule where
  search_pattern : String
  replacement_text : String
  is_regex : Bool := false
  case_sensitive : Bool := true
  target_extensions : Option String := none
  rule_id : Option Nat := none
deriving DecidableEq

/-- One tracking entry as `refactor.RefactorExecutor.execute_replacement`
builds it from a `find_matches_with_context` dict. -/
structure TrackingEntry where
  line_number : Nat
  original_text : String
  replacement_text : String
  context_snippet : String
  rule_id : Option Nat
  file_path : String
deriving DecidableEq

/-- The per-file result dict of `execute_replacement`. -/
structure ExecResult where
  file_path : String
  backup_path : Option String
  original_hash : Option String
  replacements_count : Nat
  success : Bool
  error : Option String
  tracking : List TrackingEntry
deriving DecidableEq

/-- The batch summary dict of `execute_batch`. -/
structure BatchSummary where
  total_files : Nat
  files_modified : Nat
  total_replacements : Nat
  files : List ExecResult
  errors : List String
  tracking : List TrackingEntry
deriving DecidableEq

/-- The file system visible to the executor: an association list from path to
content, later bindings shadowed by earlier ones; a missing path is a file
whose `open(...).read()` raises. -/
abbrev FS := List (String × String)

/-- Read a file (`open(path).read()`); `none` models the read raising. -/
def fsGet (fs : FS) (path : String) : Option String :=
  match fs with
  | [] => none
  | (p, c) :: rest => if p = path then some c else fsGet rest path

/-- Write (or overwrite) a file. -/
def fsSet (fs : FS) (path content : String) : FS := (path, content) :: fs

namespace RefactorExecutor

/-- `refactor.RefactorExecutor.apply_replacement`.  Unlike the scanner twin,
the regex branch re-raises an invalid pattern as
`ValueError(f"Invalid regex pattern: {e}")`, modelled as `.error`. -/
def apply_replacement (E : RegexEngine) (content search_pattern replacement_text : String)
    (is_regex case_sensitive : Bool) : Except String (String × Nat) :=
  if is_regex then
    if E.valid search_pattern then
      .ok (reSubn E search_pattern replacement_text content (!case_sensitive))
    else .error "Invalid regex pattern"
  else
    if case_sensitive then
      .ok (String.mk (pyReplace content.data search_pattern.data replacement_text.data),
        pyCount content.data search_pattern.data)
    else
      let r := ciSubn content.data search_pattern.data replacement_text.data
      .ok (String.mk r.1, r.2)

/-- The `target_extensions` gate at the top of the rule loop of
`execute_replacement`: a rule is skipped when its `target_extensions` string
is truthy and the file extension (lowered) is not in the normalized set. -/
def skipRule (rule : Rule) (file_ext : String) : Bool :=
  match rule.target_extensions with
  | none => false
  | some s =>
    if s = "" then false
    else decide (strLower file_ext ∉ FileScanner.normalize_ext_set s)

/-- Outcome of the rule loop inside `execute_replacement`. -/
inductive RulesOutcome where
  | ok (modified : String) (total : Nat) (tracking : List TrackingEntry)
  | failed (errMsg : String) (tracking : List TrackingEntry)
deriving DecidableEq

/-- The `for rule in rules` loop of `execute_replacement`: collect tracking
against the current working content, then apply the replacement and thread
the result; a raised `ValueError` stops the loop (`.failed`), `none` models
the non-terminating empty-plain-pattern tracking scan. -/
def applyRulesLoop (E : RegexEngine) (file_path file_ext : String) :
    List Rule → String → List TrackingEntry → Nat → Option RulesOutcome
  | [], content, tr, total => some (.ok content total tr)
  | rule :: rest, content, tr, total =>
    if skipRule rule file_ext then applyRulesLoop E file_path file_ext rest content tr total
    else
      match FileScanner.find_matches_with_context E content rule.search_pattern
          rule.replacement_text rule.is_regex rule.case_sensitive 1 with
      | none => none
      | some ctxms =>
        let tr' := tr ++ ctxms.map fun m =>
          { line_number := m.line_number
            original_text := m.original_text
            replacement_text := m.replacement_text
            context_snippet := m.context_snippet
            rule_id := rule.rule_id
            file_path := file_path }
        match apply_replacement E content rule.search_pattern rule.replacement_text
            rule.is_regex rule.case_sensitive with
        | .error e => some (.failed e tr')
        | .ok (c', n) => applyRulesLoop E file_path file_ext rest c' tr' (total + n)

/-- The message of the `OSError` a read of a missing file raises
(`str(e)` as stored into `result["error"]`). -/
def readErrMsg (path : String) : String :=
  "[Errno 2] No such file or directory: " ++ path

/-- The result `execute_replacement` returns when the initial read raises. -/
def readFailResult (path : String) : ExecResult :=
  { file_path := path, backup_path := none, original_hash := none
    replacements_count := 0, success := false
    error := some (readErrMsg path), tracking := [] }

/-- `refactor.RefactorExecutor.execute_replacement` for one file.  `hash`
abstracts `hashlib.sha256(...).hexdigest()`; `create_backups` is the
constructor flag.  Returns the result dict and the file system after the
call; `none` models the call never returning (empty plain pattern). -/
def execute_replacement (E : RegexEngine) (hash : String → String)
    (create_backups : Bool) (fs : FS) (file_path : String) (rules : List Rule) :
    Option (ExecResult × FS) :=
  match fsGet fs file_path with
  | none => some (readFailResult file_path, fs)
  | some original_content =>
    let original_hash := hash original_content
    let file_ext := extOf file_path
    match applyRulesLoop E file_path file_ext rules original_content [] 0 with
    | none => none
    | some (.failed e tr) =>
      some ({ file_path := file_path, backup_path := none
              original_hash := some original_hash, replacements_count := 0
              success := false, error := some e, tracking := tr }, fs)
    | some (.ok modified total tr) =>
      if total = 0 then
        some ({ file_path := file_path, backup_path := none
                original_hash := some original_hash, replacements_count := 0
                success := true, error := none, tracking := tr }, fs)
      else
        let backup :=
          if create_backups then
            (some (file_path ++ ".bak"), fsSet fs (file_path ++ ".bak") original_content)
          else (none, fs)
        let fs2 := fsSet backup.2 file_path modified
        some ({ file_path := file_path, backup_path := backup.1
                original_hash := some original_hash, replacements_count := total
                success := true, error := none, tracking := tr }, fs2)

/-- The fold of `refactor.RefactorExecutor.execute_batch` over the paths. -/
def batchLoop (E : RegexEngine) (hash : String → String) (create_backups : Bool)
    (rules : List Rule) : FS → List String → BatchSummary → Option (BatchSummary × FS)
  | fs, [], acc => some (acc, fs)
  | fs, path :: rest, acc =>
    match execute_replacement E hash create_backups fs path rules with
    | none => none
    | some (r, fs') =>
      let acc' : BatchSummary :=
        { total_files := acc.total_files
          files_modified :=
            acc.files_modified + (if r.success ∧ 0 < r.replacements_count then 1 else 0)
          total_replacements :=
            acc.total_replacements + (if r.success ∧ 0 < r.replacements_count then r.replacements_count else 0)
          files := acc.files ++ [r]
          errors := acc.errors ++ (match r.error with
            | some e => [path ++ ": " ++ e]
            | none => [])
          tracking := acc.tracking ++ r.tracking }
      batchLoop E hash create_backups rules fs' rest acc'

/-- `refactor.RefactorExecutor.execute_batch`. -/
def execute_batch (E : RegexEngine) (hash : String → String) (create_backups : Bool)
    (fs : FS) (file_paths : List String) (rules : List Rule) :
    Option (BatchSummary × FS) :=
  batchLoop E hash create_backups rules fs file_paths
    { total_files := file_paths.length, files_modified := 0, total_replacements := 0
      files := [], errors := [], tracking := [] }

end RefactorExecutor

/-- `refactor.restore_from_backup`: copy `file_path + ".bak"` over
`file_path` (`shutil.copy2`, a copy — the backup file stays in place);
`false` when the backup does not exist. -/
def restore_from_backup (fs : FS) (file_path : String) : Bool × FS :=
  match fsGet fs (file_path ++ ".bak") with
  | none => (false, fs)
  | some c => (true, fsSet fs file_path c)

/-- Python `str.upper` on `String` (ASCII model). -/
def strUpper (s : String) : String := String.mk (s.data.map Char.toUpper)

namespace DeepSearch

/-- `deep_search.COMMON_PREFIXES`. -/
def COMMON_PREFIXES : List String :=
  ["column", "col", "fld", "txt", "lbl", "btn", "tbl", "sp", "fn",
   "vw", "ddl", "chk", "rdb", "grd", "pnl", "hdn", "rpt", "frm",
   "get", "set", "is", "has", "prm", "param", "var", "tmp"]

/-- `deep_search._to_camel`: first character lowered, rest untouched. -/
def to_camel (word : String) : String :=
  match word.data with
  | [] => word
  | c :: t => String.mk (c.toLower :: t)

/-- `deep_search._to_pascal`: first character upcased, rest untouched. -/
def to_pascal (word : String) : String :=
  match word.data with
  | [] => word
  | c :: t => String.mk (c.toUpper :: t)

/-- Loop body of `deep_search._to_snake`: `_` before an uppercase letter at
position `> 0` whose predecessor is not uppercase, everything lowered. -/
def snakeGo : Option Char → List Char → List Char
  | _, [] => []
  | prev, c :: t =>
    (if c.isUpper && (match prev with | none => false | some p => !p.isUpper)
     then ['_'] else [])
    ++ c.toLower :: snakeGo (some c) t

/-- `deep_search._to_snake`. -/
def to_snake (word : String) : String := String.mk (snakeGo none word.data)

/-- One suggestion dict as `generate_variants` builds it. -/
structure Variant where
  original : String
  suggestion : String
  replacement : String
  category : String
  selected : Bool
deriving DecidableEq

/-- The inner `_add` closure of `generate_variants`: keep a candidate only
when its `(original, replacement)` key is unseen and the two sides differ;
state is (`seen` set as the list of added keys, `suggestions`). -/
def addVariant (st : List (String × String) × List Variant)
    (c : String × String × String) : List (String × String) × List Variant :=
  if (c.1, c.2.1) ∉ st.1 ∧ c.1 ≠ c.2.1 then
    ((c.1, c.2.1) :: st.1,
     st.2 ++ [{ original := c.1
                suggestion := c.1 ++ " → " ++ c.2.1
                replacement := c.2.1
                category := c.2.2
                selected := true }])
  else st

/-- The `(original, replacement, category)` candidates in the exact order
`generate_variants` emits its `_add` calls. -/
def variantCandidates (search replace : String) : List (String × String × String) :=
  [(search, replace, "Exact"),
   (strLower search, strLower replace, "Case Variant"),
   (strUpper search, strUpper replace, "Case Variant"),
   (to_pascal search, to_pascal replace, "Case Variant"),
   (to_camel search, to_camel replace, "Case Variant"),
   (to_snake search, to_snake replace, "Snake Case"),
   (strUpper (to_snake search), strUpper (to_snake replace), "Snake Case"),
   ("_" ++ to_camel search, "_" ++ to_camel replace, "Underscore Prefix"),
   ("_" ++ strLower search, "_" ++ strLower replace, "Underscore Prefix")]
  ++ COMMON_PREFIXES.map (fun p =>
       (p ++ to_pascal search, p ++ to_pascal replace, "Prefix: " ++ p ++ "*"))
  ++ (["column", "col", "tbl", "sp", "fn", "vw"].map (fun p =>
       [(p ++ "_" ++ strLower search, p ++ "_" ++ strLower replace, "Prefix: " ++ p ++ "_*"),
        (p ++ "_" ++ strUpper search, p ++ "_" ++ strUpper replace, "Prefix: " ++ p ++ "_*")])).flatten

/-- `deep_search.generate_variants`. -/
def generate_variants (search_keyword replacement_keyword : String) : List Variant :=
  let search := pyStrip search_keyword
  let replace := pyStrip replacement_keyword
  if search = "" ∨ replace = "" then []
  else ((variantCandidates search replace).foldl addVariant ([], [])).2

end DeepSearch

namespace SqlAlter

/-- Case-insensitive literal keyword test at offset `i` (one alternative of a
`re.IGNORECASE` DDL pattern). -/
def wordAt (s w : List Char) (i : Nat) : Bool :=
  isPre (w.map Char.toLower) ((s.drop i).map Char.toLower)

/-- Length of the greedy `\s+` run at offset `i`.  Keyword characters are
never whitespace, so the greedy run never needs to backtrack. -/
def wsRun (s : List Char) (i : Nat) : Nat := ((s.drop i).takeWhile isWs).length

/-- Match one keyword alternative, then continue at the offset after it. -/
def tryWord {α : Type} (s w : List Char) (i : Nat) (k : Nat → Option α) : Option α :=
  if wordAt s w i then k (i + w.length) else none

/-- Match `\s+`, then continue after the whitespace run. -/
def wsThen {α : Type} (s : List Char) (i : Nat) (k : Nat → Option α) : Option α :=
  let r := wsRun s i
  if 0 < r then k (i + r) else none

/-- `CREATE\s+TYPE\s+` at offset `i` (TABLE_TYPE detection pattern). -/
def tableTypeAt (s : List Char) (i : Nat) : Option Nat :=
  tryWord s "CREATE".data i fun j => wsThen s j fun j =>
    tryWord s "TYPE".data j fun j => wsThen s j some

/-- `(?:CREATE|ALTER)\s+VIEW\s+` at offset `i`. -/
def viewAt (s : List Char) (i : Nat) : Option Nat :=
  (tryWord s "CREATE".data i fun j => wsThen s j fun j =>
    tryWord s "VIEW".data j fun j => wsThen s j some)
  <|>
  (tryWord s "ALTER".data i fun j => wsThen s j fun j =>
    tryWord s "VIEW".data j fun j => wsThen s j some)

/-- `(?:PROCEDURE|PROC)\s+` at offset `j` (the alternation backtracks from
`PROCEDURE` to `PROC` when the trailing whitespace is missing). -/
def procWs (s : List Char) (j : Nat) : Option Nat :=
  (tryWord s "PROCEDURE".data j fun j2 => wsThen s j2 some)
  <|> (tryWord s "PROC".data j fun j2 => wsThen s j2 some)

/-- `(?:CREATE|ALTER)\s+(?:PROCEDURE|PROC)\s+` at offset `i`. -/
def spAt (s : List Char) (i : Nat) : Option Nat :=
  (tryWord s "CREATE".data i fun j => wsThen s j fun j2 => procWs s j2)
  <|> (tryWord s "ALTER".data i fun j => wsThen s j fun j2 => procWs s j2)

/-- `(?:CREATE|ALTER)\s+FUNCTION\s+` at offset `i`. -/
def fnAt (s : List Char) (i : Nat) : Option Nat :=
  (tryWord s "CREATE".data i fun j => wsThen s j fun j =>
    tryWord s "FUNCTION".data j fun j => wsThen s j some)
  <|>
  (tryWord s "ALTER".data i fun j => wsThen s j fun j =>
    tryWord s "FUNCTION".data j fun j => wsThen s j some)

/-- `CREATE\s+TABLE\s+` at offset `i`. -/
def tableAt (s : List Char) (i : Nat) : Option Nat :=
  tryWord s "CREATE".data i fun j => wsThen s j fun j =>
    tryWord s "TABLE".data j fun j => wsThen s j some

/-- Leftmost-match scan (`re.search`): try `f` at offsets `i, i + 1, ...`. -/
def scanFrom {α : Type} (f : Nat → Option α) : Nat → Nat → Option α
  | 0, _ => none
  | fuel + 1, i =>
    match f i with
    | some x => some x
    | none => scanFrom f fuel (i + 1)

/-- `re.search` over the whole of `s`. -/
def reSearch {α : Type} (f : Nat → Option α) (s : List Char) : Option α :=
  scanFrom f (s.length + 1) 0

/-- `os.path.basename` (posix). -/
def basenameList (p : List Char) : List Char :=
  match rfindIdx p '/' with
  | none => p
  | some i => p.drop (i + 1)

/-- `sql_alter.detect_sql_type`: priority-ordered content patterns, then the
filename-prefix heuristic, else UNKNOWN. -/
def detect_sql_type (content : String) (file_path : String := "") : String :=
  let s := content.data
  if (reSearch (tableTypeAt s) s).isSome then "TABLE_TYPE"
  else if (reSearch (viewAt s) s).isSome then "VIEW"
  else if (reSearch (spAt s) s).isSome then "STORED_PROCEDURE"
  else if (reSearch (fnAt s) s).isSome then "FUNCTION"
  else if (reSearch (tableAt s) s).isSome then "TABLE"
  else if file_path ≠ "" then
    let b := (strLower (String.mk (basenameList file_path.data))).data
    if isPre "sp".data b ∨ isPre "usp".data b then "STORED_PROCEDURE"
    else if isPre "vw".data b ∨ isPre "view".data b then "VIEW"
    else if isPre "fn".data b ∨ isPre "ufn".data b then "FUNCTION"
    else if isPre "tbl".data b ∨ isPre "table".data b then "TABLE"
    else "UNKNOWN"
  else "UNKNOWN"

/-- A character of the `[\[\].\w]` object-name class (ASCII `\w`). -/
def isNameChar (c : Char) : Bool :=
  c.isAlphanum || c = '_' || c = '[' || c = ']' || c = '.'

/-- The greedy `([\[\].\w]+)` capture at offset `j` (at least one char). -/
def nameCapture (s : List Char) (j : Nat) : Option (List Char) :=
  let nm := (s.drop j).takeWhile isNameChar
  if nm = [] then none else some nm

/-- `(?:PROCEDURE|PROC)\s+([\[\].\w]+)` at offset `j`. -/
def procName (s : List Char) (j : Nat) : Option (List Char) :=
  (tryWord s "PROCEDURE".data j fun j2 => wsThen s j2 fun j3 => nameCapture s j3)
  <|> (tryWord s "PROC".data j fun j2 => wsThen s j2 fun j3 => nameCapture s j3)

/-- `(?:CREATE|ALTER)\s+(?:PROCEDURE|PROC)\s+([\[\].\w]+)` at offset `i`. -/
def spNameAt (s : List Char) (i : Nat) : Option (List Char) :=
  (tryWord s "CREATE".data i fun j => wsThen s j fun j2 => procName s j2)
  <|> (tryWord s "ALTER".data i fun j => wsThen s j fun j2 => procName s j2)

/-- `sql_alter._extract_object_name` for the STORED_PROCEDURE kind. -/
def extract_sp_name (content : String) : Option String :=
  (reSearch (spNameAt content.data) content.data).map String.mk

/-- `sql_alter._strip_brackets`: `name.replace("[", "").replace("]", "")`. -/
def strip_brackets (name : String) : String :=
  String.mk (pyReplace (pyReplace name.data "[".data "".data) "]".data "".data)

/-- `CREATE\s+OR\s+ALTER\s+<kw>` at offset `i`, returning the match end. -/
def createOrAlterAt (kw s : List Char) (i : Nat) : Option Nat :=
  tryWord s "CREATE".data i fun j => wsThen s j fun j =>
    tryWord s "OR".data j fun j => wsThen s j fun j =>
      tryWord s "ALTER".data j fun j => wsThen s j fun j =>
        tryWord s kw j some

/-- `CREATE\s+<kw>` at offset `i`, returning the match end. -/
def createKwAt (kw s : List Char) (i : Nat) : Option Nat :=
  tryWord s "CREATE".data i fun j => wsThen s j fun j => tryWord s kw j some

/-- The `(start, end)` span of the leftmost match of `f` in `s`. -/
def firstMatch (s : List Char) (f : Nat → Option Nat) : Option (Nat × Nat) :=
  reSearch (fun i => (f i).map fun e => (i, e)) s

/-- `re.sub(pat, rep, s, count=1)`: splice `rep` over the leftmost match. -/
def subFirst (s : List Char) (f : Nat → Option Nat) (rep : List Char) : List Char :=
  match firstMatch s f with
  | none => s
  | some (i, e) => s.take i ++ rep ++ s.drop e

/-- `sql_alter._replace_create_with_alter`: first `CREATE OR ALTER <kw>` then
plain `CREATE <kw>`, each replaced once by `ALTER <kw>`, case-insensitively. -/
def replace_create_with_alter (content : String) (object_keyword : String) : String :=
  let rep := ("ALTER " ++ object_keyword).data
  let s1 := subFirst content.data (createOrAlterAt object_keyword.data content.data) rep
  let s2 := subFirst s1 (createKwAt object_keyword.data s1) rep
  String.mk s2

/-- `sql_alter._case_insensitive_replace`
(`re.sub(re.escape(search), replace, content, flags=re.IGNORECASE)`). -/
def case_insensitive_replace (content search replace : String) : String :=
  String.mk (ciSubn content.data search.data replace.data).1

/-- A single-quote character, built by code point to keep source text clean. -/
def sq : String := String.mk [Char.ofNat 39]

/-- `sql_alter._generate_sp_alter`: the joined script and the warnings the
Python function appends to its `warnings` argument. -/
def generate_sp_alter (content object_name search replace : String) :
    String × List String :=
  let clean_name := strip_brackets object_name
  let altered1 := replace_create_with_alter content "PROCEDURE"
  let altered2 := replace_create_with_alter altered1 "PROC"
  let altered := case_insensitive_replace altered2 search replace
  let lines : List String :=
    ["-- ==============================================",
     "-- ALTER Script for STORED PROCEDURE: " ++ clean_name,
     "-- Keyword: " ++ sq ++ search ++ sq ++ " → " ++ sq ++ replace ++ sq,
     "-- Strategy: ALTER PROCEDURE (preserves permissions)",
     "-- ==============================================",
     "",
     pyStrip altered,
     "GO"]
  (String.mk (joinSep ['\n'] (lines.map String.data)),
   ["Review parameter names and internal references after replacement."])

/-- The fixed prefix of a `_generate_sp_alter` script: its first six lines
(the comment banner and the blank separator line), newline-joined and
newline-terminated. -/
def sp_banner (clean_name search replace : String) : String :=
  String.mk (joinSep ['\n']
    (["-- ==============================================",
      "-- ALTER Script for STORED PROCEDURE: " ++ clean_name,
      "-- Keyword: " ++ sq ++ search ++ sq ++ " → " ++ sq ++ replace ++ sq,
      "-- Strategy: ALTER PROCEDURE (preserves permissions)",
      "-- ==============================================",
      ""].map String.data) ++ ['\n'])

/-- A Scenario-C file: content beginning `CREATE PROCEDURE usp_GetEmployee `
followed by an arbitrary remainder. -/
def spChkContent (rest : List Char) : List Char :=
  "CREATE PROCEDURE usp_GetEmployee ".data ++ rest

/-- The same file after `_replace_create_with_alter(content, "PROCEDURE")`
rewrote the leading clause. -/
def spChkAltered (rest : List Char) : List Char :=
  "ALTER PROCEDURE usp_GetEmployee ".data ++ rest

end SqlAlter

/-- A regex engine with no valid pattern: the plain-text paths never consult
the engine, so any engine works for plain-text facts; this one instantiates
witnesses. -/
def trivialEngine : RegexEngine :=
  { valid := fun _ => false, find := fun _ _ _ => [] }

/-! ### Unfolding equations (stated once so rewriting does not depend on
how the equation compiler phrases them) -/

theorem countF_zero (s pat : List Char) : countF 0 s pat = 0 := rfl

theorem countF_succ (fuel : Nat) (s pat : List Char) :
    countF (fuel + 1) s pat =
      if isPre pat s ∧ pat ≠ [] then countF fuel (s.drop pat.length) pat + 1
      else
        match s with
        | [] => 0
        | _ :: t => countF fuel t pat := rfl

theorem replaceF_zero (s pat rep : List Char) : replaceF 0 s pat rep = s := rfl

theorem replaceF_succ (fuel : Nat) (s pat rep : List Char) :
    replaceF (fuel + 1) s pat rep =
      if isPre pat s ∧ pat ≠ [] then rep ++ replaceF fuel (s.drop pat.length) pat rep
      else
        match s with
        | [] => []
        | a :: t => a :: replaceF fuel t pat rep := rfl

theorem ciSubnF_zero (s patL rep : List Char) : ciSubnF 0 s patL rep = (s, 0) := rfl

theorem ciSubnF_succ (fuel : Nat) (s patL rep : List Char) :
    ciSubnF (fuel + 1) s patL rep =
      if isPre patL (s.map Char.toLower) ∧ patL ≠ [] then
        let r := ciSubnF fuel (s.drop patL.length) patL rep
        (rep ++ r.1, r.2 + 1)
      else
        match s with
        | [] => ([], 0)
        | a :: t =>
          let r := ciSubnF fuel t patL rep
          (a :: r.1, r.2) := rfl

theorem findFromList_eq (s pat : List Char) :
    findFromList s pat =
      if isPre pat s then some 0
      else
        match s with
        | [] => none
        | _ :: t => (findFromList t pat).map (· + 1) := by
  rw [findFromList.eq_def]

theorem matchLoop_zero (sc oc pat : List Char) (start : Nat) :
    FileScanner.matchLoop sc oc pat start 0 = none := rfl

theorem matchLoop_succ (sc oc pat : List Char) (start fuel : Nat) :
    FileScanner.matchLoop sc oc pat start (fuel + 1) =
      match pyFindFrom sc pat start with
      | none => some []
      | some pos =>
        (FileScanner.matchLoop sc oc pat (pos + pat.length) fuel).map
          fun rest =>
            (pos, pos + pat.length, String.mk ((oc.drop pos).take pat.length)) :: rest := rfl

/-! ### Lemmas about the matching primitives -/

theorem isPre_exists {p s : List Char} : isPre p s = true ↔ ∃ t, s = p ++ t := by
  induction p generalizing s with
  | nil => simp [isPre]
  | cons a as ih =>
    cases s with
    | nil => simp [isPre]
    | cons b bs =>
      by_cases hab : a = b
      · subst hab
        simp [isPre, ih]
      · rw [show isPre (a :: as) (b :: bs) = false by simp [isPre, hab]]
        simp only [Bool.false_eq_true, false_iff]
        rintro ⟨t, ht⟩
        injection ht with h1 _
        exact hab h1.symm

theorem isPre_length {p s : List Char} (h : isPre p s = true) : p.length ≤ s.length := by
  obtain ⟨t, rfl⟩ := isPre_exists.mp h
  simp

theorem isPre_append {p a : List Char} (b : List Char) (h : isPre p a = true) :
    isPre p (a ++ b) = true := by
  obtain ⟨t, rfl⟩ := isPre_exists.mp h
  exact isPre_exists.mpr ⟨t ++ b, by simp⟩

theorem mapDrop (f : Char → Char) : ∀ (n : Nat) (l : List Char),
    (l.drop n).map f = (l.map f).drop n := by
  intro n
  induction n with
  | zero => simp
  | succ m ih =>
    intro l
    cases l with
    | nil => simp
    | cons a t => simp [ih t]

theorem countF_stable {pat : List Char} :
    ∀ fuel₁ fuel₂ (s : List Char), s.length < fuel₁ → s.length < fuel₂ →
      countF fuel₁ s pat = countF fuel₂ s pat := by
  intro fuel₁
  induction fuel₁ with
  | zero => intro fuel₂ s h _; exact absurd h (by omega)
  | succ f ih =>
    intro fuel₂ s h₁ h₂
    cases fuel₂ with
    | zero => exact absurd h₂ (by omega)
    | succ g =>
      rw [countF_succ, countF_succ]
      by_cases hh : isPre pat s = true ∧ pat ≠ []
      · rw [if_pos hh, if_pos hh]
        have hlen := isPre_length hh.1
        have hplen : 0 < pat.length := by
          cases pat with
          | nil => exact absurd rfl hh.2
          | cons x xs => simp
        have hd : (s.drop pat.length).length = s.length - pat.length := by simp
        exact congrArg (· + 1) (ih g (s.drop pat.length) (by omega) (by omega))
      · rw [if_neg hh, if_neg hh]
        cases s with
        | nil => rfl
        | cons a t =>
          exact ih g t (by simp at h₁ ⊢; omega) (by simp at h₂ ⊢; omega)

theorem findFromList_none_count {pat : List Char} :
    ∀ fuel (s : List Char), findFromList s pat = none → countF fuel s pat = 0 := by
  intro fuel
  induction fuel with
  | zero => intro s _; rfl
  | succ f ih =>
    intro s h
    have hnp : ¬ isPre pat s = true := by
      intro hc
      rw [findFromList_eq, if_pos hc] at h
      exact Option.noConfusion h
    rw [countF_succ, if_neg (by simp [hnp])]
    cases s with
    | nil => rfl
    | cons a t =>
      apply ih
      rw [findFromList_eq, if_neg hnp] at h
      change Option.map (· + 1) (findFromList t pat) = none at h
      cases hft : findFromList t pat with
      | none => rfl
      | some k => rw [hft] at h; exact Option.noConfusion h

theorem findFromList_some_count {pat : List Char} (hp : pat ≠ []) :
    ∀ (s : List Char) (j : Nat), findFromList s pat = some j →
      isPre pat (s.drop j) = true ∧ j + pat.length ≤ s.length ∧
      countF (s.length + 1) s pat
        = countF ((s.drop (j + pat.length)).length + 1) (s.drop (j + pat.length)) pat + 1 := by
  intro s
  induction s with
  | nil =>
    intro j h
    have : isPre pat [] = false := by
      cases pat with
      | nil => exact absurd rfl hp
      | cons x xs => rfl
    rw [findFromList_eq, if_neg (by simp [this])] at h
    exact Option.noConfusion h
  | cons a t ih =>
    intro j h
    by_cases hi : isPre pat (a :: t) = true
    · rw [findFromList_eq, if_pos hi] at h
      obtain rfl : (0 : Nat) = j := Option.some.inj h
      have hlen := isPre_length hi
      refine ⟨by simpa using hi, by simpa using hlen, ?_⟩
      have h0 : (0 : Nat) + pat.length = pat.length := by omega
      rw [h0, countF_succ, if_pos ⟨hi, hp⟩]
      have hplen : 0 < pat.length := by
        cases pat with
        | nil => exact absurd rfl hp
        | cons x xs => simp
      have h₁ : ((a :: t).drop pat.length).length < (a :: t).length := by
        simp
        omega
      exact congrArg (· + 1)
        (countF_stable ((a :: t).length) (((a :: t).drop pat.length).length + 1)
          ((a :: t).drop pat.length) h₁ (by omega))
    · rw [findFromList_eq, if_neg hi] at h
      change Option.map (· + 1) (findFromList t pat) = some j at h
      cases hft : findFromList t pat with
      | none => rw [hft] at h; exact Option.noConfusion h
      | some k =>
        rw [hft] at h
        obtain rfl : k + 1 = j := Option.some.inj h
        obtain ⟨hpre, hle, hcount⟩ := ih k hft
        refine ⟨by simpa using hpre, by simp; omega, ?_⟩
        have hm : (a :: t).drop (k + 1 + pat.length) = t.drop (k + pat.length) := by
          have : k + 1 + pat.length = (k + pat.length) + 1 := by omega
          rw [this]
          rfl
        rw [hm]
        rw [countF_succ, if_neg (by simp [hi])]
        show countF ((a :: t).length) t pat = _
        rw [countF_stable ((a :: t).length) (t.length + 1) t (by simp) (by omega)]
        exact hcount

/-- The plain-text scan loop of `find_matches` terminates on a non-empty
pattern, returns as many matches as Python `str.count` finds, every match
starts at or after the scan start, and the spans are ordered disjointly. -/
theorem matchLoop_spec {sc oc pat : List Char} (hp : pat ≠ []) :
    ∀ (fuel start : Nat), start ≤ sc.length → sc.length - start < fuel →
      ∃ l, FileScanner.matchLoop sc oc pat start fuel = some l
        ∧ l.length = countF ((sc.drop start).length + 1) (sc.drop start) pat
        ∧ (∀ m ∈ l, start ≤ m.1)
        ∧ l.Pairwise (fun a b => a.2.1 ≤ b.1) := by
  intro fuel
  induction fuel with
  | zero => intro start _ h₂; exact absurd h₂ (by omega)
  | succ f ih =>
    intro start hstart hfuel
    rw [matchLoop_succ]
    cases hfind : pyFindFrom sc pat start with
    | none =>
      refine ⟨[], rfl, ?_, by simp, by simp⟩
      rw [pyFindFrom, if_pos hstart] at hfind
      have hnone : findFromList (sc.drop start) pat = none := by
        cases hf : findFromList (sc.drop start) pat with
        | none => rfl
        | some k => rw [hf] at hfind; exact Option.noConfusion hfind
      exact (findFromList_none_count _ _ hnone).symm
    | some pos =>
      rw [pyFindFrom, if_pos hstart] at hfind
      obtain ⟨j, hj, rfl⟩ : ∃ j, findFromList (sc.drop start) pat = some j ∧ pos = j + start := by
        cases hf : findFromList (sc.drop start) pat with
        | none => rw [hf] at hfind; exact Option.noConfusion hfind
        | some k =>
          rw [hf] at hfind
          exact ⟨k, rfl, (Option.some.inj hfind).symm⟩
      obtain ⟨hpre, hle, hcount⟩ := findFromList_some_count hp (sc.drop start) j hj
      have hplen : 0 < pat.length := by
        cases pat with
        | nil => exact absurd rfl hp
        | cons x xs => simp
      have hdl : (sc.drop start).length = sc.length - start := by simp
      have hstart' : (j + start) + pat.length ≤ sc.length := by omega
      have hfuel' : sc.length - ((j + start) + pat.length) < f := by omega
      obtain ⟨rest, hrest, hrlen, hrbound, hrpair⟩ :=
        ih ((j + start) + pat.length) hstart' hfuel'
      refine ⟨(j + start, (j + start) + pat.length,
          String.mk ((oc.drop (j + start)).take pat.length)) :: rest, ?_, ?_, ?_, ?_⟩
      · change Option.map _ (FileScanner.matchLoop sc oc pat (j + start + pat.length) f) = _
        rw [hrest]
        rfl
      · show rest.length + 1 = _
        rw [hcount]
        have hdd : (sc.drop start).drop (j + pat.length) = sc.drop ((j + start) + pat.length) := by
          rw [List.drop_drop]
          congr 1
          omega
        rw [hdd] at *
        omega
      · intro m hm
        rcases List.mem_cons.mp hm with rfl | hmr
        · show start ≤ j + start
          omega
        · have := hrbound m hmr
          omega
      · rw [List.pairwise_cons]
        refine ⟨fun b hb => ?_, hrpair⟩
        have := hrbound b hb
        exact this

/-- The Python loop body of plain-text `find_matches` never terminates on an
empty pattern: `find` keeps returning `start` and `start` never advances. -/
theorem matchLoop_nil_pat {sc oc : List Char} :
    ∀ (fuel start : Nat), start ≤ sc.length →
      FileScanner.matchLoop sc oc [] start fuel = none := by
  intro fuel
  induction fuel with
  | zero => intro start _; rfl
  | succ f ih =>
    intro start h
    rw [matchLoop_succ]
    have hfind : pyFindFrom sc [] start = some start := by
      rw [pyFindFrom, if_pos h, findFromList_eq, if_pos (by rfl)]
      simp
    rw [hfind]
    change Option.map _ (FileScanner.matchLoop sc oc [] start f) = none
    rw [ih start h]
    rfl

/-- The count returned by the case-insensitive literal `re.subn` equals the
non-overlapping count over the lowered content. -/
theorem ciSubnF_count {patL rep : List Char} :
    ∀ (fuel : Nat) (s : List Char),
      (ciSubnF fuel s patL rep).2 = countF fuel (s.map Char.toLower) patL := by
  intro fuel
  induction fuel with
  | zero => intro s; rfl
  | succ f ih =>
    intro s
    rw [ciSubnF_succ, countF_succ]
    by_cases hh : isPre patL (s.map Char.toLower) = true ∧ patL ≠ []
    · rw [if_pos hh, if_pos hh]
      show (ciSubnF f (s.drop patL.length) patL rep).2 + 1 = _
      rw [ih (s.drop patL.length), mapDrop]
    · rw [if_neg hh, if_neg hh]
      cases s with
      | nil => rfl
      | cons a t =>
        show (ciSubnF f t patL rep).2 = _
        rw [ih t]
        rfl

/-! ### Claim theorems -/

/-- C1: the claim that an empty or whitespace-only `search_pattern` never
matches anything is violated by the code: in plain-text mode the single-space
pattern matches the space of `"a b"` (one match, one replacement), and the
empty pattern makes `RefactorExecutor.apply_replacement` insert the
replacement at every position (`count = len + 1`, the "match everything"
behaviour the spec rules out) while plain-text `find_matches` never returns
(modelled as `none`). -/
theorem c1_whitespace_and_empty_patterns_match :
    FileScanner.find_matches trivialEngine "a b" " " false true = some [(1, 2, " ")]
    ∧ RefactorExecutor.apply_replacement trivialEngine "a b" " " "_" false true
        = .ok ("a_b", 1)
    ∧ FileScanner.find_matches trivialEngine "abc" "" false true = none
    ∧ RefactorExecutor.apply_replacement trivialEngine "abc" "" "X" false true
        = .ok ("XaXbXcX", 4) :=
  ⟨by decide, rfl, by decide, rfl⟩

/-- C2: whenever `find_matches` returns (it diverges only for an empty
plain-text pattern), the count returned by `FileScanner.apply_replacement`
under the same `(content, pattern, is_regex, case_sensitive)` equals the
length of the match list. -/
theorem c2_apply_count_eq_find_matches (E : RegexEngine)
    (content search_pattern replacement_text : String) (is_regex case_sensitive : Bool)
    (ms : List (Nat × Nat × String))
    (h : FileScanner.find_matches E content search_pattern is_regex case_sensitive = some ms) :
    (FileScanner.apply_replacement E content search_pattern replacement_text
        is_regex case_sensitive).2 = ms.length := by
  cases is_regex with
  | true =>
    by_cases hv : E.valid search_pattern = true
    · simp only [FileScanner.find_matches, if_pos hv, if_true, Option.some.injEq] at h
      subst h
      simp [FileScanner.apply_replacement, reSubn, hv]
    · simp only [FileScanner.find_matches, if_neg hv, if_true, Option.some.injEq] at h
      subst h
      simp [FileScanner.apply_replacement, hv]
  | false =>
    by_cases hpd : search_pattern.data = []
    · exfalso
      cases case_sensitive with
      | true =>
        simp only [FileScanner.find_matches, Bool.false_eq_true, if_false, if_true] at h
        rw [hpd, matchLoop_nil_pat _ 0 (by omega)] at h
        exact Option.noConfusion h
      | false =>
        simp only [FileScanner.find_matches, Bool.false_eq_true, if_false] at h
        rw [hpd] at h
        rw [show List.map Char.toLower [] = [] from rfl,
          matchLoop_nil_pat _ 0 (by omega)] at h
        exact Option.noConfusion h
    · cases case_sensitive with
      | true =>
        simp only [FileScanner.find_matches, Bool.false_eq_true, if_false, if_true] at h
        obtain ⟨l, hl, hlen, -, -⟩ :=
          @matchLoop_spec content.data content.data search_pattern.data hpd
            (content.data.length + 1) 0 (by omega) (by omega)
        rw [hl, Option.some.injEq] at h
        subst h
        simp only [FileScanner.apply_replacement, Bool.false_eq_true, if_false, if_true]
        rw [pyCount, if_neg hpd, hlen]
        simp
      | false =>
        simp only [FileScanner.find_matches, Bool.false_eq_true, if_false] at h
        have hpd' : search_pattern.data.map Char.toLower ≠ [] := by
          intro hc
          exact hpd (List.map_eq_nil_iff.mp hc)
        obtain ⟨l, hl, hlen, -, -⟩ :=
          @matchLoop_spec (content.data.map Char.toLower) content.data
            (search_pattern.data.map Char.toLower) hpd'
            ((content.data.map Char.toLower).length + 1) 0 (by omega) (by omega)
        rw [hl, Option.some.injEq] at h
        subst h
        simp only [FileScanner.apply_replacement, Bool.false_eq_true, if_false]
        rw [ciSubn]
        simp only [if_neg hpd']
        rw [ciSubnF_count, hlen]
        simp [countF_stable (content.data.length + 1)
          ((content.data.map Char.toLower).length + 1) (content.data.map Char.toLower)
          (by simp) (by simp)]

/-- C2 witness at a concrete input. -/
theorem c2_apply_count_eq_find_matches_witness :
    FileScanner.find_matches trivialEngine "abab" "ab" false true
      = some [(0, 2, "ab"), (2, 4, "ab")]
    ∧ (FileScanner.apply_replacement trivialEngine "abab" "ab" "X" false true).2
      = [((0 : Nat), (2 : Nat), "ab"), (2, 4, "ab")].length :=
  ⟨by decide,
   c2_apply_count_eq_find_matches trivialEngine "abab" "ab" "X" false true _ (by decide)⟩

/-- C3: in plain-text mode with a non-empty pattern, `find_matches` always
returns and its spans are ordered and mutually disjoint (each match ends at
or before the next begins — the scan resumes at `pos + len(pattern)`), and
searching `"aa"` in `"aaaa"` yields exactly the two matches `[0,2)` and
`[2,4)`, not three. -/
theorem c3_plain_text_nonoverlapping :
    (∀ (E : RegexEngine) (content search_pattern : String) (case_sensitive : Bool),
        search_pattern ≠ "" →
        ∃ ms, FileScanner.find_matches E content search_pattern false case_sensitive = some ms
          ∧ ms.Pairwise (fun a b => a.2.1 ≤ b.1))
    ∧ FileScanner.find_matches trivialEngine "aaaa" "aa" false true
        = some [(0, 2, "aa"), (2, 4, "aa")] := by
  constructor
  · intro E content search_pattern cs hne
    have hpd : search_pattern.data ≠ [] := by
      intro hc
      apply hne
      cases search_pattern with
      | mk d =>
        have : d = [] := hc
        rw [this]
    cases cs with
    | true =>
      obtain ⟨l, hl, -, -, hpair⟩ :=
        @matchLoop_spec content.data content.data search_pattern.data hpd
          (content.data.length + 1) 0 (by omega) (by omega)
      refine ⟨l, ?_, hpair⟩
      simp only [FileScanner.find_matches, Bool.false_eq_true, if_false, if_true]
      exact hl
    | false =>
      have hpd' : search_pattern.data.map Char.toLower ≠ [] := by
        intro hc
        exact hpd (List.map_eq_nil_iff.mp hc)
      obtain ⟨l, hl, -, -, hpair⟩ :=
        @matchLoop_spec (content.data.map Char.toLower) content.data
          (search_pattern.data.map Char.toLower) hpd'
          ((content.data.map Char.toLower).length + 1) 0 (by omega) (by omega)
      refine ⟨l, ?_, hpair⟩
      simp only [FileScanner.find_matches, Bool.false_eq_true, if_false]
      exact hl
  · decide

/-- C3 witness: the universal part applied at `"aaaa"`/`"aa"`. -/
theorem c3_plain_text_nonoverlapping_witness :
    ("aa" : String) ≠ ""
    ∧ ∃ ms, FileScanner.find_matches trivialEngine "aaaa" "aa" false true = some ms
        ∧ ms.Pairwise (fun a b => a.2.1 ≤ b.1) :=
  ⟨by decide, c3_plain_text_nonoverlapping.1 trivialEngine "aaaa" "aa" true (by decide)⟩

/-- A replaced string contains no further occurrence of a single-character
pattern that is absent from the replacement text. -/
theorem replaceF_single_not_mem {c : Char} {rep : List Char} (hc : c ∉ rep) :
    ∀ (fuel : Nat) (s : List Char), s.length < fuel → c ∉ replaceF fuel s [c] rep := by
  intro fuel
  induction fuel with
  | zero => intro s h; exact absurd h (by omega)
  | succ f ih =>
    intro s hs
    rw [replaceF_succ]
    by_cases hh : isPre [c] s = true ∧ [c] ≠ ([] : List Char)
    · rw [if_pos hh]
      obtain ⟨t, rfl⟩ := isPre_exists.mp hh.1
      have hdrop : List.drop (List.length [c]) ([c] ++ t) = t := rfl
      rw [hdrop]
      intro hmem
      rcases List.mem_append.mp hmem with h1 | h2
      · exact hc h1
      · exact ih t (by simp at hs; omega) h2
    · rw [if_neg hh]
      cases s with
      | nil => simp
      | cons a t =>
        have hne : ¬(c = a) := by
          intro hca
          apply hh
          refine ⟨?_, by simp⟩
          subst hca
          simp [isPre]
        intro hmem
        rcases List.mem_cons.mp hmem with h1 | h2
        · exact hne h1
        · exact ih t (by simp at hs; omega) h2

/-- A string not containing `c` has zero non-overlapping occurrences of
the single-character pattern `[c]`. -/
theorem countF_single_zero {c : Char} :
    ∀ (fuel : Nat) (s : List Char), c ∉ s → countF fuel s [c] = 0 := by
  intro fuel
  induction fuel with
  | zero => intro s _; rfl
  | succ f ih =>
    intro s hs
    rw [countF_succ]
    have hnp : ¬ isPre [c] s = true := by
      intro hp
      obtain ⟨t, rfl⟩ := isPre_exists.mp hp
      exact hs (by simp)
    rw [if_neg (by simp [hnp])]
    cases s with
    | nil => rfl
    | cons a t => exact ih t (fun hm => hs (List.mem_cons_of_mem a hm))

/-- C6 counterexample: with search `"aa"` and replacement `"a"` — a
replacement that does not contain the search text — a second application to
the first output still performs one replacement (`"aaa" -> "aa" -> "a"`):
the removal re-joins two halves of a new occurrence. -/
theorem c6_counterexample_juxtaposition :
    findFromList "a".data "aa".data = none
    ∧ FileScanner.apply_replacement trivialEngine "aaa" "aa" "a" false true = ("aa", 1)
    ∧ (FileScanner.apply_replacement trivialEngine "aa" "aa" "a" false true).2 = 1 :=
  ⟨by decide, by decide, by decide⟩

/-- C6 amended: in case-sensitive plain-text mode, re-running a rule on its
own output yields zero further replacements whenever the search text is a
single character that does not occur in the replacement text (juxtaposition
can re-create longer search texts, cf. the counterexample). -/
theorem c6_amended_single_char_idempotent (E : RegexEngine) (content replacement : String)
    (c : Char) (hc : c ∉ replacement.data) :
    (FileScanner.apply_replacement E
        (FileScanner.apply_replacement E content (String.mk [c]) replacement false true).1
        (String.mk [c]) replacement false true).2 = 0 := by
  simp only [FileScanner.apply_replacement, Bool.false_eq_true, if_false, if_true]
  show pyCount (pyReplace content.data [c] replacement.data) [c] = 0
  rw [pyCount, if_neg (by simp)]
  apply countF_single_zero
  rw [pyReplace, if_neg (by simp)]
  exact replaceF_single_not_mem hc _ _ (by omega)

/-- C6 amended witness at a concrete input. -/
theorem c6_amended_witness :
    (('a' : Char) ∉ ("bc" : String).data)
    ∧ (FileScanner.apply_replacement trivialEngine
        (FileScanner.apply_replacement trivialEngine "xaya" (String.mk ['a']) "bc" false true).1
        (String.mk ['a']) "bc" false true).2 = 0 :=
  ⟨by decide, c6_amended_single_char_idempotent trivialEngine "xaya" "bc" 'a' (by decide)⟩

/-- C9: a file passes `should_include_file` iff its lowered extension is not
excluded and (the include set is empty — include all — or the extension is
in it). -/
theorem c9_should_include_iff (include_extensions exclude_extensions exclude_folders
    file_path : String) :
    FileScanner.should_include_file
        (FileScanner.mkScanner include_extensions exclude_extensions exclude_folders)
        file_path = true
    ↔ (strLower (extOf file_path) ∉ FileScanner.normalize_ext_set exclude_extensions
        ∧ (FileScanner.normalize_ext_set include_extensions = []
           ∨ strLower (extOf file_path) ∈ FileScanner.normalize_ext_set include_extensions)) := by
  simp only [FileScanner.should_include_file, FileScanner.mkScanner]
  by_cases hexc : strLower (extOf file_path) ∈ FileScanner.normalize_ext_set exclude_extensions
  · simp [hexc]
  · by_cases hinc : FileScanner.normalize_ext_set include_extensions = []
    · simp [hexc, hinc]
    · simp [hexc, hinc]

/-- C10: a successful `restore_from_backup` copies rather than moves: the
`.bak` file still exists afterwards with its content unchanged, so an
immediately repeated call also returns `true` and writes the same bytes to
`file_path`. -/
theorem c10_restore_from_backup_copies (fs : FS) (file_path : String)
    (h : (restore_from_backup fs file_path).1 = true) :
    ∃ c, fsGet fs (file_path ++ ".bak") = some c
      ∧ (restore_from_backup fs file_path).2 = fsSet fs file_path c
      ∧ fsGet (fsSet fs file_path c) (file_path ++ ".bak") = some c
      ∧ restore_from_backup (fsSet fs file_path c) file_path
          = (true, fsSet (fsSet fs file_path c) file_path c)
      ∧ fsGet (fsSet (fsSet fs file_path c) file_path c) file_path = some c := by
  have hbak : file_path ++ ".bak" ≠ file_path := by
    intro hc
    have hd := congrArg String.data hc
    rw [String.data_append] at hd
    have := congrArg List.length hd
    simp at this
  cases hget : fsGet fs (file_path ++ ".bak") with
  | none =>
    rw [restore_from_backup, hget] at h
    exact absurd h (by simp)
  | some c =>
    refine ⟨c, rfl, ?_, ?_, ?_, ?_⟩
    · rw [restore_from_backup, hget]
    · show (if file_path = file_path ++ ".bak" then some c else fsGet fs (file_path ++ ".bak"))
        = some c
      rw [if_neg (fun hq => hbak hq.symm), hget]
    · rw [restore_from_backup]
      have : fsGet (fsSet fs file_path c) (file_path ++ ".bak") = some c := by
        show (if file_path = file_path ++ ".bak" then some c else fsGet fs (file_path ++ ".bak"))
          = some c
        rw [if_neg (fun hq => hbak hq.symm), hget]
      rw [this]
    · show (if file_path = file_path then some c else _) = some c
      rw [if_pos rfl]

/-- A file whose read raises yields the canonical failure result and leaves
the file system untouched. -/
theorem exec_unreadable (E : RegexEngine) (hash : String → String) (create_backups : Bool)
    (fs : FS) (p : String) (rules : List Rule) (h : fsGet fs p = none) :
    RefactorExecutor.execute_replacement E hash create_backups fs p rules
      = some (RefactorExecutor.readFailResult p, fs) := by
  simp [RefactorExecutor.execute_replacement, h]

/-- C5: when the rule loop finishes with a zero total replacement count, the
execution of that file is a pure no-op: success, no backup, zero
replacements, and the file system (hence the file content) untouched. -/
theorem c5_zero_total_is_noop (E : RegexEngine) (hash : String → String)
    (create_backups : Bool) (fs : FS) (file_path : String) (rules : List Rule)
    (content modified : String) (tracking : List TrackingEntry)
    (hread : fsGet fs file_path = some content)
    (hrun : RefactorExecutor.applyRulesLoop E file_path (extOf file_path) rules content [] 0
        = some (.ok modified 0 tracking)) :
    RefactorExecutor.execute_replacement E hash create_backups fs file_path rules
      = some ({ file_path := file_path, backup_path := none,
                original_hash := some (hash content), replacements_count := 0,
                success := true, error := none, tracking := tracking }, fs) := by
  simp [RefactorExecutor.execute_replacement, hread, hrun]

/-- C5 witness: an already-clean file under a non-matching rule. -/
theorem c5_zero_total_is_noop_witness :
    fsGet [("c.cs", "zz")] "c.cs" = some "zz"
    ∧ RefactorExecutor.applyRulesLoop trivialEngine "c.cs" (extOf "c.cs")
        [{ search_pattern := "x", replacement_text := "w" }] "zz" [] 0
        = some (.ok "zz" 0 [])
    ∧ RefactorExecutor.execute_replacement trivialEngine (fun s => s) true
        [("c.cs", "zz")] "c.cs" [{ search_pattern := "x", replacement_text := "w" }]
      = some ({ file_path := "c.cs", backup_path := none,
                original_hash := some ((fun s : String => s) "zz"), replacements_count := 0,
                success := true, error := none, tracking := [] }, [("c.cs", "zz")]) :=
  ⟨by decide, by decide,
   c5_zero_total_is_noop trivialEngine (fun s => s) true [("c.cs", "zz")] "c.cs"
     [{ search_pattern := "x", replacement_text := "w" }] "zz" "zz" []
     (by decide) (by decide)⟩

/-- C4: in a batch of three files whose middle file is unreadable, the read
failure is recorded in that file result and as the single batch error entry
(referencing that file), while the other two files are still processed and
their results returned. -/
theorem c4_batch_isolates_read_failure (E : RegexEngine) (hash : String → String)
    (create_backups : Bool) (fs fs1 fs3 : FS) (p1 p2 p3 : String) (rules : List Rule)
    (r1 r3 : ExecResult)
    (h1 : RefactorExecutor.execute_replacement E hash create_backups fs p1 rules
        = some (r1, fs1))
    (h1e : r1.error = none)
    (h2 : fsGet fs1 p2 = none)
    (h3 : RefactorExecutor.execute_replacement E hash create_backups fs1 p3 rules
        = some (r3, fs3))
    (h3e : r3.error = none) :
    ∃ S, RefactorExecutor.execute_batch E hash create_backups fs [p1, p2, p3] rules
        = some (S, fs3)
      ∧ S.files = [r1, RefactorExecutor.readFailResult p2, r3]
      ∧ S.errors = [p2 ++ ": " ++ RefactorExecutor.readErrMsg p2]
      ∧ (RefactorExecutor.readFailResult p2).error
          = some (RefactorExecutor.readErrMsg p2)
      ∧ S.total_files = 3 := by
  have h2' := exec_unreadable E hash create_backups fs1 p2 rules h2
  simp only [RefactorExecutor.execute_batch, RefactorExecutor.batchLoop, h1, h2', h3]
  refine ⟨_, rfl, by simp, ?_, rfl, by simp⟩
  simp [h1e, h3e, RefactorExecutor.readFailResult]

/-- C4 witness: three concrete files, the middle one missing. -/
theorem c4_batch_isolates_read_failure_witness :
    RefactorExecutor.execute_replacement trivialEngine (fun s => s) true
        [("a.cs", "p x q"), ("c.cs", "zz")] "a.cs"
        [{ search_pattern := "x", replacement_text := "w" }]
      = some ({ file_path := "a.cs", backup_path := some "a.cs.bak",
                original_hash := some "p x q", replacements_count := 1,
                success := true, error := none,
                tracking := [{ line_number := 1, original_text := "x",
                               replacement_text := "w", context_snippet := "p x q",
                               rule_id := none, file_path := "a.cs" }] },
              [("a.cs", "p w q"), ("a.cs.bak", "p x q"), ("a.cs", "p x q"), ("c.cs", "zz")])
    ∧ fsGet [("a.cs", "p w q"), ("a.cs.bak", "p x q"), ("a.cs", "p x q"), ("c.cs", "zz")]
        "b.cs" = none
    ∧ ∃ S, RefactorExecutor.execute_batch trivialEngine (fun s => s) true
          [("a.cs", "p x q"), ("c.cs", "zz")] ["a.cs", "b.cs", "c.cs"]
          [{ search_pattern := "x", replacement_text := "w" }]
        = some (S, [("a.cs", "p w q"), ("a.cs.bak", "p x q"), ("a.cs", "p x q"), ("c.cs", "zz")])
      ∧ S.errors = ["b.cs" ++ ": " ++ RefactorExecutor.readErrMsg "b.cs"]
      ∧ S.total_files = 3 := by
  refine ⟨by decide, by decide, ?_⟩
  obtain ⟨S, hS, -, he, -, ht⟩ :=
    c4_batch_isolates_read_failure trivialEngine (fun s => s) true
      [("a.cs", "p x q"), ("c.cs", "zz")]
      [("a.cs", "p w q"), ("a.cs.bak", "p x q"), ("a.cs", "p x q"), ("c.cs", "zz")]
      [("a.cs", "p w q"), ("a.cs.bak", "p x q"), ("a.cs", "p x q"), ("c.cs", "zz")]
      "a.cs" "b.cs" "c.cs"
      [{ search_pattern := "x", replacement_text := "w" }]
      { file_path := "a.cs", backup_path := some "a.cs.bak",
        original_hash := some "p x q", replacements_count := 1,
        success := true, error := none,
        tracking := [{ line_number := 1, original_text := "x",
                       replacement_text := "w", context_snippet := "p x q",
                       rule_id := none, file_path := "a.cs" }] }
      { file_path := "c.cs", backup_path := none, original_hash := some "zz",
        replacements_count := 0, success := true, error := none, tracking := [] }
      (by decide) (by decide) (by decide) (by decide) (by decide)
  exact ⟨S, hS, he, ht⟩

/-- One `_add` call preserves the `generate_variants` invariant: every kept
suggestion has distinct sides, the `(original, replacement)` keys are
pairwise distinct, and every key is in the `seen` set. -/
theorem addVariant_inv (st : List (String × String) × List DeepSearch.Variant)
    (c : String × String × String)
    (h1 : ∀ v ∈ st.2, v.original ≠ v.replacement)
    (h2 : (st.2.map fun v => (v.original, v.replacement)).Nodup)
    (h3 : ∀ v ∈ st.2, (v.original, v.replacement) ∈ st.1) :
    (∀ v ∈ (DeepSearch.addVariant st c).2, v.original ≠ v.replacement)
    ∧ ((DeepSearch.addVariant st c).2.map fun v => (v.original, v.replacement)).Nodup
    ∧ ∀ v ∈ (DeepSearch.addVariant st c).2,
        (v.original, v.replacement) ∈ (DeepSearch.addVariant st c).1 := by
  rw [DeepSearch.addVariant]
  by_cases hc : (c.1, c.2.1) ∉ st.1 ∧ c.1 ≠ c.2.1
  · rw [if_pos hc]
    refine ⟨?_, ?_, ?_⟩
    · intro v hv
      rcases List.mem_append.mp hv with hv | hv
      · exact h1 v hv
      · rw [List.mem_singleton] at hv
        subst hv
        exact hc.2
    · rw [List.map_append, List.nodup_append]
      refine ⟨h2, by simp, ?_⟩
      intro a ha hb
      rw [List.mem_map] at ha
      obtain ⟨v, hv, hkey⟩ := ha
      simp only [List.map_cons, List.map_nil, List.mem_singleton] at hb
      subst hb
      exact hc.1 (hkey ▸ h3 v hv)
    · intro v hv
      rcases List.mem_append.mp hv with hv | hv
      · exact List.mem_cons_of_mem _ (h3 v hv)
      · rw [List.mem_singleton] at hv
        subst hv
        exact List.mem_cons_self _ _
  · rw [if_neg hc]
    exact ⟨h1, h2, h3⟩

/-- The `_add` invariant is preserved along the whole candidate fold. -/
theorem foldl_addVariant_inv :
    ∀ (cands : List (String × String × String))
      (st : List (String × String) × List DeepSearch.Variant),
      (∀ v ∈ st.2, v.original ≠ v.replacement) →
      (st.2.map fun v => (v.original, v.replacement)).Nodup →
      (∀ v ∈ st.2, (v.original, v.replacement) ∈ st.1) →
      (∀ v ∈ (cands.foldl DeepSearch.addVariant st).2, v.original ≠ v.replacement)
      ∧ ((cands.foldl DeepSearch.addVariant st).2.map
          fun v => (v.original, v.replacement)).Nodup := by
  intro cands
  induction cands with
  | nil => intro st h1 h2 _; exact ⟨h1, h2⟩
  | cons c cs ih =>
    intro st h1 h2 h3
    obtain ⟨g1, g2, g3⟩ := addVariant_inv st c h1 h2 h3
    exact ih (DeepSearch.addVariant st c) g1 g2 g3

/-- C8: `generate_variants` never emits a pair whose original equals its
replacement, and the `(original, replacement)` pairs of one call are
pairwise distinct. -/
theorem c8_variants_nodup_and_nontrivial (search_keyword replacement_keyword : String) :
    (∀ v ∈ DeepSearch.generate_variants search_keyword replacement_keyword,
        v.original ≠ v.replacement)
    ∧ ((DeepSearch.generate_variants search_keyword replacement_keyword).map
        fun v => (v.original, v.replacement)).Nodup := by
  rw [DeepSearch.generate_variants]
  by_cases hb : pyStrip search_keyword = "" ∨ pyStrip replacement_keyword = ""
  · rw [if_pos hb]
    simp
  · rw [if_neg hb]
    exact foldl_addVariant_inv _ ([], []) (by simp) (by simp) (by simp)

/-- Unfolding equation for the leftmost-match scanner. -/
theorem scanFrom_succ {α : Type} (f : Nat → Option α) (fuel i : Nat) :
    SqlAlter.scanFrom f (fuel + 1) i =
      match f i with
      | some x => some x
      | none => SqlAlter.scanFrom f fuel (i + 1) := rfl

/-- A `takeWhile` that stops inside the left part of an append ignores the
right part. -/
theorem takeWhileAppend (p : Char → Bool) :
    ∀ (a b : List Char), (a.takeWhile p).length < a.length →
      (a ++ b).takeWhile p = a.takeWhile p := by
  intro a
  induction a with
  | nil => intro b h; exact absurd h (by simp)
  | cons x t ih =>
    intro b h
    by_cases hx : p x = true
    · rw [List.cons_append, List.takeWhile_cons, if_pos hx, List.takeWhile_cons, if_pos hx]
      rw [List.takeWhile_cons, if_pos hx] at h
      simp only [List.length_cons] at h
      rw [ih b (by omega)]
    · rw [List.cons_append, List.takeWhile_cons, if_neg hx, List.takeWhile_cons, if_neg hx]

/-- A case-insensitive keyword match established inside the concrete prefix
of `a ++ b`. -/
theorem wordAt_concrete {a : List Char} (b w : List Char) (i : Nat)
    (hi : i ≤ a.length)
    (h : isPre (w.map Char.toLower) ((a.drop i).map Char.toLower) = true) :
    SqlAlter.wordAt (a ++ b) w i = true := by
  rw [SqlAlter.wordAt, List.drop_append_of_le_length hi, List.map_append]
  exact isPre_append _ h

/-- A whitespace run fully inside the concrete prefix of `a ++ b`. -/
theorem wsRun_concrete {a : List Char} (b : List Char) (i : Nat)
    (hi : i ≤ a.length)
    (h : ((a.drop i).takeWhile isWs).length < (a.drop i).length) :
    SqlAlter.wsRun (a ++ b) i = SqlAlter.wsRun a i := by
  rw [SqlAlter.wsRun, SqlAlter.wsRun, List.drop_append_of_le_length hi,
    takeWhileAppend isWs _ _ h]

/-- A name capture fully inside the concrete prefix of `a ++ b`. -/
theorem nameCapture_concrete {a : List Char} (b : List Char) (i : Nat)
    (hi : i ≤ a.length)
    (h : ((a.drop i).takeWhile SqlAlter.isNameChar).length < (a.drop i).length) :
    SqlAlter.nameCapture (a ++ b) i = SqlAlter.nameCapture a i := by
  rw [SqlAlter.nameCapture, SqlAlter.nameCapture, List.drop_append_of_le_length hi,
    takeWhileAppend SqlAlter.isNameChar _ _ h]

/-- `dropWhile` over an append splits on whether the left part is consumed
entirely. -/
theorem dropWhileAppend (p : Char → Bool) :
    ∀ (x y : List Char),
      ((x.dropWhile p = [] ∧ (x ++ y).dropWhile p = y.dropWhile p)
       ∨ (x ++ y).dropWhile p = x.dropWhile p ++ y) := by
  intro x
  induction x with
  | nil => intro y; exact .inl ⟨rfl, rfl⟩
  | cons c t ih =>
    intro y
    by_cases hc : p c = true
    · rw [List.cons_append, List.dropWhile_cons, if_pos hc, List.dropWhile_cons, if_pos hc]
      exact ih y
    · rw [List.cons_append, List.dropWhile_cons, if_neg hc, List.dropWhile_cons, if_neg hc]
      exact .inr rfl

/-- Appending to a string whose trailing whitespace is already stripped
keeps it as a prefix of the stripped result. -/
theorem dropTrail_append (a b : List Char) (ha : dropTrailWs a = a) :
    ∃ t, dropTrailWs (a ++ b) = a ++ t := by
  rw [dropTrailWs, List.reverse_append]
  rcases dropWhileAppend isWs b.reverse a.reverse with ⟨-, h2⟩ | h2
  · rw [h2]
    refine ⟨[], ?_⟩
    rw [List.append_nil]
    exact ha
  · rw [h2, List.reverse_append, List.reverse_reverse]
    exact ⟨_, rfl⟩

/-- `dropWhile` never lengthens a list. -/
theorem dropWhile_length_le (p : Char → Bool) :
    ∀ (l : List Char), (l.dropWhile p).length ≤ l.length := by
  intro l
  induction l with
  | nil => simp
  | cons x t ih =>
    rw [List.dropWhile_cons]
    by_cases hx : p x = true
    · rw [if_pos hx]
      simp only [List.length_cons]
      omega
    · rw [if_neg hx]

/-- Prepending keeps a whitespace-free head: `dropWhile` does not enter the
appended tail. -/
theorem dropLead_append (a b : List Char) (ha : dropLeadWs a = a) (hne : a ≠ []) :
    dropLeadWs (a ++ b) = a ++ b := by
  cases a with
  | nil => exact absurd rfl hne
  | cons x t =>
    have hx : isWs x = false := by
      by_contra hico
      have hx' : isWs x = true := by
        cases hix : isWs x with
        | true => rfl
        | false => exact absurd hix hico
      rw [dropLeadWs, List.dropWhile_cons, if_pos hx'] at ha
      have := congrArg List.length ha
      have hle := dropWhile_length_le isWs t
      simp at this
      omega
    rw [List.cons_append, dropLeadWs, List.dropWhile_cons, if_neg (by simp [hx])]

set_option maxRecDepth 400000 in
/-- C7 counterexample: for a Scenario-C file the detected kind is
STORED_PROCEDURE, but the synthesized script does not begin with
`ALTER PROCEDURE usp_GetEmployee` — it begins with the comment banner. -/
theorem c7_counterexample_banner_first :
    SqlAlter.detect_sql_type "CREATE PROCEDURE usp_GetEmployee AS SELECT 1" ""
      = "STORED_PROCEDURE"
    ∧ isPre "ALTER PROCEDURE usp_GetEmployee".data
        ((SqlAlter.generate_sp_alter "CREATE PROCEDURE usp_GetEmployee AS SELECT 1"
          "usp_GetEmployee" "CNIC" "NationalID").1).data = false
    ∧ isPre "-- ".data
        ((SqlAlter.generate_sp_alter "CREATE PROCEDURE usp_GetEmployee AS SELECT 1"
          "usp_GetEmployee" "CNIC" "NationalID").1).data = true :=
  ⟨by decide, by decide, by decide⟩

/-- A case-insensitive literal substitution with zero matches returns the
content unchanged. -/
theorem ciSubnF_zero_fst {patL rep : List Char} :
    ∀ (fuel : Nat) (s : List Char), (ciSubnF fuel s patL rep).2 = 0 →
      (ciSubnF fuel s patL rep).1 = s := by
  intro fuel
  induction fuel with
  | zero => intro s _; rfl
  | succ f ih =>
    intro s h
    rw [ciSubnF_succ] at h ⊢
    by_cases hh : isPre patL (s.map Char.toLower) = true ∧ patL ≠ []
    · rw [if_pos hh] at h
      simp at h
    · rw [if_neg hh] at h ⊢
      cases s with
      | nil => rfl
      | cons a t =>
        show a :: (ciSubnF f t patL rep).1 = a :: t
        rw [ih t h]

/-- `re.subn(re.escape(pat), rep, s, IGNORECASE)` with count 0 is the
identity on the content. -/
theorem ciSubn_zero_fst {s pat rep : List Char} (h : (ciSubn s pat rep).2 = 0) :
    (ciSubn s pat rep).1 = s := by
  simp only [ciSubn] at h ⊢
  by_cases hp : pat.map Char.toLower = []
  · rw [if_pos hp] at h
    simp at h
  · rw [if_neg hp] at h ⊢
    exact ciSubnF_zero_fst _ _ h

/-- Joining `xs ++ [y, z]` splits into the join of `xs` and the two tails. -/
theorem joinSep_append_two (sep : List Char) :
    ∀ (xs : List (List Char)) (y z : List Char), xs ≠ [] →
      joinSep sep (xs ++ [y, z])
        = joinSep sep xs ++ sep ++ y ++ sep ++ z := by
  intro xs
  induction xs with
  | nil => intro y z h; exact absurd rfl h
  | cons x xs' ih =>
    intro y z _
    cases xs' with
    | nil => simp [joinSep, List.append_assoc]
    | cons x2 xs'' =>
      have h1 : joinSep sep ((x :: x2 :: xs'') ++ [y, z])
          = x ++ sep ++ joinSep sep ((x2 :: xs'') ++ [y, z]) := by
        simp [joinSep]
      have h2 : joinSep sep (x :: x2 :: xs'') = x ++ sep ++ joinSep sep (x2 :: xs'') := by
        simp [joinSep]
      rw [h1, h2, ih y z (by simp)]
      simp [List.append_assoc]

set_option maxRecDepth 4000 in
/-- C7 amended: for a Scenario-C file (content starting
`CREATE PROCEDURE usp_GetEmployee `) in which no `CREATE TYPE` /
`CREATE|ALTER VIEW` pattern occurs, no further `CREATE [OR ALTER]
PROCEDURE/PROC` clause occurs beyond the leading one, and the search text
does not occur (case-insensitively) in the rewritten statement, the detected
kind is STORED_PROCEDURE, the extracted object name is `usp_GetEmployee`,
and the synthesized script is the comment banner followed immediately by the
SQL statement, which begins `ALTER PROCEDURE usp_GetEmployee` — the script
itself thus begins with the banner, not with the ALTER clause. -/
theorem c7_amended_alter_after_banner (rest : List Char) (search replace : String)
    (h1 : SqlAlter.reSearch (SqlAlter.tableTypeAt (SqlAlter.spChkContent rest))
        (SqlAlter.spChkContent rest) = none)
    (h2 : SqlAlter.reSearch (SqlAlter.viewAt (SqlAlter.spChkContent rest))
        (SqlAlter.spChkContent rest) = none)
    (h3 : SqlAlter.firstMatch (SqlAlter.spChkContent rest)
        (SqlAlter.createOrAlterAt "PROCEDURE".data (SqlAlter.spChkContent rest)) = none)
    (h4 : SqlAlter.firstMatch (SqlAlter.spChkAltered rest)
        (SqlAlter.createOrAlterAt "PROC".data (SqlAlter.spChkAltered rest)) = none)
    (h5 : SqlAlter.firstMatch (SqlAlter.spChkAltered rest)
        (SqlAlter.createKwAt "PROC".data (SqlAlter.spChkAltered rest)) = none)
    (h6 : (ciSubn (SqlAlter.spChkAltered rest) search.data replace.data).2 = 0) :
    SqlAlter.detect_sql_type (String.mk (SqlAlter.spChkContent rest)) ""
        = "STORED_PROCEDURE"
    ∧ SqlAlter.extract_sp_name (String.mk (SqlAlter.spChkContent rest))
        = some "usp_GetEmployee"
    ∧ ∃ tail : String,
        (SqlAlter.generate_sp_alter (String.mk (SqlAlter.spChkContent rest))
            "usp_GetEmployee" search replace).1
          = SqlAlter.sp_banner "usp_GetEmployee" search replace
            ++ "ALTER PROCEDURE usp_GetEmployee" ++ tail := by
  have hdata : (String.mk (SqlAlter.spChkContent rest)).data = SqlAlter.spChkContent rest := rfl
  have hdata2 : (String.mk (SqlAlter.spChkAltered rest)).data = SqlAlter.spChkAltered rest := rfl
  have hconsC : SqlAlter.spChkContent rest
      = 'C' :: 'R' :: 'E' :: 'A' :: 'T' :: 'E' :: ' ' :: 'P' :: 'R' :: 'O' :: 'C' :: 'E'
        :: 'D' :: 'U' :: 'R' :: 'E' :: ' ' :: 'u' :: 's' :: 'p' :: '_' :: 'G' :: 'e'
        :: 't' :: 'E' :: 'm' :: 'p' :: 'l' :: 'o' :: 'y' :: 'e' :: 'e' :: ' ' :: rest := rfl
  have hspAt : SqlAlter.spAt (SqlAlter.spChkContent rest) 0 = some 17 := by
    rw [hconsC]
    simp +decide [SqlAlter.spAt, SqlAlter.tryWord, SqlAlter.wsThen, SqlAlter.procWs,
      SqlAlter.wordAt, SqlAlter.wsRun, isPre, isWs, List.takeWhile]
  have hdet : SqlAlter.detect_sql_type (String.mk (SqlAlter.spChkContent rest)) ""
      = "STORED_PROCEDURE" := by
    simp only [SqlAlter.detect_sql_type, hdata, h1, h2, Option.isSome_none,
      Bool.false_eq_true, if_false]
    rw [SqlAlter.reSearch, scanFrom_succ, hspAt]
    rfl
  have hnameAt : SqlAlter.spNameAt (SqlAlter.spChkContent rest) 0
      = some "usp_GetEmployee".data := by
    rw [hconsC]
    simp +decide [SqlAlter.spNameAt, SqlAlter.tryWord, SqlAlter.wsThen, SqlAlter.procName,
      SqlAlter.wordAt, SqlAlter.wsRun, SqlAlter.nameCapture, isPre, isWs,
      SqlAlter.isNameChar, List.takeWhile]
  have hname : SqlAlter.extract_sp_name (String.mk (SqlAlter.spChkContent rest))
      = some "usp_GetEmployee" := by
    simp only [SqlAlter.extract_sp_name, hdata]
    rw [SqlAlter.reSearch, scanFrom_succ, hnameAt]
    rfl
  have hkw : SqlAlter.createKwAt "PROCEDURE".data (SqlAlter.spChkContent rest) 0
      = some 16 := by
    rw [hconsC]
    simp +decide [SqlAlter.createKwAt, SqlAlter.tryWord, SqlAlter.wsThen, SqlAlter.wordAt,
      SqlAlter.wsRun, isPre, isWs, List.takeWhile]
  have hfm : SqlAlter.firstMatch (SqlAlter.spChkContent rest)
      (SqlAlter.createKwAt "PROCEDURE".data (SqlAlter.spChkContent rest)) = some (0, 16) := by
    rw [SqlAlter.firstMatch, SqlAlter.reSearch, scanFrom_succ, hkw]
    rfl
  have h3' : SqlAlter.firstMatch (SqlAlter.spChkContent rest)
      (SqlAlter.createOrAlterAt ['P', 'R', 'O', 'C', 'E', 'D', 'U', 'R', 'E']
        (SqlAlter.spChkContent rest)) = none := h3
  have hfm' : SqlAlter.firstMatch (SqlAlter.spChkContent rest)
      (SqlAlter.createKwAt ['P', 'R', 'O', 'C', 'E', 'D', 'U', 'R', 'E']
        (SqlAlter.spChkContent rest)) = some (0, 16) := hfm
  have h4' : SqlAlter.firstMatch (SqlAlter.spChkAltered rest)
      (SqlAlter.createOrAlterAt ['P', 'R', 'O', 'C'] (SqlAlter.spChkAltered rest)) = none := h4
  have h5' : SqlAlter.firstMatch (SqlAlter.spChkAltered rest)
      (SqlAlter.createKwAt ['P', 'R', 'O', 'C'] (SqlAlter.spChkAltered rest)) = none := h5
  have hpass1 : SqlAlter.subFirst (SqlAlter.spChkContent rest)
      (SqlAlter.createOrAlterAt ['P', 'R', 'O', 'C', 'E', 'D', 'U', 'R', 'E']
        (SqlAlter.spChkContent rest))
      ("ALTER " ++ "PROCEDURE").data = SqlAlter.spChkContent rest := by
    rw [SqlAlter.subFirst, h3']
  have hrcwa1 : SqlAlter.replace_create_with_alter (String.mk (SqlAlter.spChkContent rest))
      "PROCEDURE" = String.mk (SqlAlter.spChkAltered rest) := by
    simp only [SqlAlter.replace_create_with_alter, hdata]
    rw [hpass1, SqlAlter.subFirst, hfm', hconsC]
    rfl
  have hpass3 : SqlAlter.subFirst (SqlAlter.spChkAltered rest)
      (SqlAlter.createOrAlterAt ['P', 'R', 'O', 'C'] (SqlAlter.spChkAltered rest))
      ("ALTER " ++ "PROC").data = SqlAlter.spChkAltered rest := by
    rw [SqlAlter.subFirst, h4']
  have hrcwa2 : SqlAlter.replace_create_with_alter (String.mk (SqlAlter.spChkAltered rest))
      "PROC" = String.mk (SqlAlter.spChkAltered rest) := by
    simp only [SqlAlter.replace_create_with_alter, hdata2]
    rw [hpass3, SqlAlter.subFirst, h5']
  have hci : SqlAlter.case_insensitive_replace (String.mk (SqlAlter.spChkAltered rest))
      search replace = String.mk (SqlAlter.spChkAltered rest) := by
    simp only [SqlAlter.case_insensitive_replace, hdata2]
    rw [ciSubn_zero_fst h6]
  have hstrip : ∃ t, stripList (SqlAlter.spChkAltered rest)
      = "ALTER PROCEDURE usp_GetEmployee".data ++ t := by
    have hsplit : SqlAlter.spChkAltered rest
        = "ALTER PROCEDURE usp_GetEmployee".data ++ (' ' :: rest) := rfl
    rw [hsplit, stripList, dropLead_append _ _ (by decide) (by decide)]
    exact dropTrail_append _ _ (by decide)
  refine ⟨hdet, hname, ?_⟩
  obtain ⟨t, ht⟩ := hstrip
  refine ⟨String.mk (t ++ '\n' :: "GO".data), ?_⟩
  have hclean : SqlAlter.strip_brackets "usp_GetEmployee" = "usp_GetEmployee" := by decide
  simp only [SqlAlter.generate_sp_alter, hclean, hrcwa1, hrcwa2, hci]
  apply String.ext
  show joinSep ['\n'] _ = _
  simp only [List.map_cons, List.map_nil]
  rw [show (pyStrip (String.mk (SqlAlter.spChkAltered rest))).data
      = "ALTER PROCEDURE usp_GetEmployee".data ++ t from ht]
  rw [show ["-- ==============================================".data,
        ("-- ALTER Script for STORED PROCEDURE: " ++ "usp_GetEmployee").data,
        ("-- Keyword: " ++ SqlAlter.sq ++ search ++ SqlAlter.sq ++ " → "
          ++ SqlAlter.sq ++ replace ++ SqlAlter.sq).data,
        "-- Strategy: ALTER PROCEDURE (preserves permissions)".data,
        "-- ==============================================".data,
        "".data,
        "ALTER PROCEDURE usp_GetEmployee".data ++ t,
        "GO".data]
      = ["-- ==============================================".data,
        ("-- ALTER Script for STORED PROCEDURE: " ++ "usp_GetEmployee").data,
        ("-- Keyword: " ++ SqlAlter.sq ++ search ++ SqlAlter.sq ++ " → "
          ++ SqlAlter.sq ++ replace ++ SqlAlter.sq).data,
        "-- Strategy: ALTER PROCEDURE (preserves permissions)".data,
        "-- ==============================================".data,
        "".data]
        ++ ["ALTER PROCEDURE usp_GetEmployee".data ++ t, "GO".data] from rfl]
  rw [joinSep_append_two ['\n'] _ _ _ (by simp)]
  simp only [String.data_append, SqlAlter.sp_banner, List.map_cons, List.map_nil]
  show _ = (String.mk _).data ++ _
  simp only [List.append_assoc, List.cons_append, List.nil_append]

set_option maxRecDepth 400000 in
/-- C7 amended witness: the Scenario-C content with body `AS SELECT 1` and
the keyword pair CNIC → NationalID. -/
theorem c7_amended_alter_after_banner_witness :
    SqlAlter.reSearch (SqlAlter.tableTypeAt (SqlAlter.spChkContent "AS SELECT 1".data))
        (SqlAlter.spChkContent "AS SELECT 1".data) = none
    ∧ SqlAlter.firstMatch (SqlAlter.spChkContent "AS SELECT 1".data)
        (SqlAlter.createOrAlterAt "PROCEDURE".data (SqlAlter.spChkContent "AS SELECT 1".data))
        = none
    ∧ (ciSubn (SqlAlter.spChkAltered "AS SELECT 1".data) ("CNIC" : String).data
        ("NationalID" : String).data).2 = 0
    ∧ (SqlAlter.detect_sql_type (String.mk (SqlAlter.spChkContent "AS SELECT 1".data)) ""
          = "STORED_PROCEDURE"
       ∧ SqlAlter.extract_sp_name (String.mk (SqlAlter.spChkContent "AS SELECT 1".data))
          = some "usp_GetEmployee"
       ∧ ∃ tail : String,
          (SqlAlter.generate_sp_alter (String.mk (SqlAlter.spChkContent "AS SELECT 1".data))
              "usp_GetEmployee" "CNIC" "NationalID").1
            = SqlAlter.sp_banner "usp_GetEmployee" "CNIC" "NationalID"
              ++ "ALTER PROCEDURE usp_GetEmployee" ++ tail) :=
  ⟨by decide, by decide, by decide,
   c7_amended_alter_after_banner "AS SELECT 1".data "CNIC" "NationalID"
     (by decide) (by decide) (by decide) (by decide) (by decide) (by decide)⟩

/-- C10 witness at a concrete file system. -/
theorem c10_restore_from_backup_witness :
    (restore_from_backup [("f.bak", "data"), ("f", "old")] "f").1 = true
    ∧ ∃ c, fsGet [("f.bak", "data"), ("f", "old")] ("f" ++ ".bak") = some c
      ∧ (restore_from_backup [("f.bak", "data"), ("f", "old")] "f").2
          = fsSet [("f.bak", "data"), ("f", "old")] "f" c
      ∧ fsGet (fsSet [("f.bak", "data"), ("f", "old")] "f" c) ("f" ++ ".bak") = some c
      ∧ restore_from_backup (fsSet [("f.bak", "data"), ("f", "old")] "f" c) "f"
          = (true, fsSet (fsSet [("f.bak", "data"), ("f", "old")] "f" c) "f" c)
      ∧ fsGet (fsSet (fsSet [("f.bak", "data"), ("f", "old")] "f" c) "f" c) "f" = some c :=
  ⟨by decide, c10_restore_from_backup_copies [("f.bak", "data"), ("f", "old")] "f" (by decide)⟩

end Workbench
